import Mathlib

/-!
Verification of the assistant-API helper scripts.

The repository consists of thin client scripts around a remote
conversational-assistant service.  We embed the helper functions of
`_Assistants_helper_module.py` (namespace `HM`) and the inlined copies in
`OpenAI_Assistants.py` (namespace `OA`) shallowly:

* a `Run` / `Thread` / `Message` record mirrors the fields the scripts read;
* the polling loop `wait_on_run` is embedded as a fuel-indexed function over a
  stream of service responses (the i-th re-fetch returns `client i`), which
  also returns the trace of service calls and suspensions it performs; `none`
  means the loop has not exited within the given fuel;
* the message/run creation helpers are embedded over an explicit service
  state (fresh-identifier counters, a per-thread message store, and a log of
  issued calls), modelling the remote endpoints the scripts invoke.
-/

/-- One content element of a message: the scripts read `content[0].text.value`. -/
structure TextVal where
  value : String
deriving DecidableEq, Repr

/-- A content part, carrying a text payload. -/
structure ContentPart where
  text : TextVal
deriving DecidableEq, Repr

/-- A conversation thread; the scripts only ever read its `id`. -/
structure Thread where
  id : Nat
deriving DecidableEq, Repr

/-- A message in a thread, with the fields the scripts read. -/
structure Message where
  id : Nat
  thread_id : Nat
  role : String
  content : List ContentPart
  created_at : Nat
deriving DecidableEq, Repr

/-- A run: one execution of an assistant against a thread.  The scripts read
`id`, `thread_id` and `status`; `status` is the literal status string of the
service (`"queued"`, `"in_progress"`, `"completed"`, `"failed"`, ...). -/
structure Run where
  id : Nat
  thread_id : Nat
  assistant_id : Nat
  status : String
deriving DecidableEq, Repr

/-- An observable effect of the scripts: a service call or a suspension. -/
inductive Event where
  | threadCreate (tid : Nat)
  | msgCreate (tid : Nat) (role : String) (content : String)
  | runCreate (tid : Nat) (aid : Nat)
  | runRetrieve (tid : Nat) (rid : Nat)
  | sleep (ms : Nat)
deriving DecidableEq, Repr

/-- The loop condition of `wait_on_run`:
`run.status == "queued" or run.status == "in_progress"`. -/
def isPending (status : String) : Bool :=
  status == "queued" || status == "in_progress"

/-- Number of run re-fetches (`runs.retrieve` calls) in a trace. -/
def countRetrieves (tr : List Event) : Nat :=
  tr.countP (fun e => match e with | Event.runRetrieve _ _ => true | _ => false)

/-- Number of suspensions (`time.sleep` calls) in a trace. -/
def countSleeps (tr : List Event) : Nat :=
  tr.countP (fun e => match e with | Event.sleep _ => true | _ => false)

namespace HM

/-- Embeds `wait_on_run(client, run, thread)` from `_Assistants_helper_module.py`:
`while run.status == "queued" or run.status == "in_progress": run =
client.beta.threads.runs.retrieve(thread_id=thread.id, run_id=run.id);
time.sleep(0.5)`, then `return run`.  `client k` is the run snapshot the
service returns to the k-th retrieve call; `fuel` bounds the number of loop
iterations we unfold (`none` = the loop is still spinning after `fuel`
iterations).  Besides the final run we return the trace of retrieve calls
(with the argument values `thread.id` and the current `run.id`) and sleeps
(500 ms each, from `time.sleep(0.5)`) the loop performs. -/
def wait_on_run (client : Nat → Run) : Nat → Nat → Run → Thread → Option (Run × List Event)
  | 0, _, run, _ =>
      if isPending run.status then none else some (run, [])
  | fuel + 1, k, run, thread =>
      if isPending run.status then
        match wait_on_run client fuel (k + 1) (client k) thread with
        | some (rf, tr) =>
            some (rf, Event.runRetrieve thread.id run.id :: Event.sleep 500 :: tr)
        | none => none
      else some (run, [])

end HM

/-- Concrete fixture: a service that answers `"in_progress"` to every
re-fetch. -/
def svcPending : Nat → Run :=
  fun _ => Run.mk 5 3 4 "in_progress"

/-- Concrete fixture: a service that answers `"completed"` to every
re-fetch. -/
def svcDone : Nat → Run :=
  fun _ => Run.mk 9 3 4 "completed"

/-- State of the remote service as the creation endpoints used by the scripts
observe it: fresh-identifier counters, the per-thread message log, and the
log of calls issued so far. -/
structure ServiceState where
  nextThreadId : Nat
  nextMessageId : Nat
  nextRunId : Nat
  msgsOf : Nat → List Message
  log : List Event

namespace Service

/-- The `threads.create()` endpoint: returns a thread with a fresh identifier
and an empty message log. -/
def threadsCreate (s : ServiceState) : Thread × ServiceState :=
  (Thread.mk s.nextThreadId,
   { s with
     nextThreadId := s.nextThreadId + 1,
     msgsOf := fun t => if t = s.nextThreadId then [] else s.msgsOf t,
     log := s.log ++ [Event.threadCreate s.nextThreadId] })

/-- The `threads.messages.create(thread_id, role, content)` endpoint: appends
a fresh message to the message log of the given thread. -/
def messagesCreate (s : ServiceState) (thread_id : Nat) (role content : String) :
    Message × ServiceState :=
  let m : Message :=
    Message.mk s.nextMessageId thread_id role
      [ContentPart.mk (TextVal.mk content)] s.nextMessageId
  (m,
   { s with
     nextMessageId := s.nextMessageId + 1,
     msgsOf := fun t => if t = thread_id then s.msgsOf t ++ [m] else s.msgsOf t,
     log := s.log ++ [Event.msgCreate thread_id role content] })

/-- The `threads.runs.create(thread_id, assistant_id)` endpoint: returns a
fresh run in status `"queued"` referencing the given thread and assistant. -/
def runsCreate (s : ServiceState) (thread_id assistant_id : Nat) :
    Run × ServiceState :=
  (Run.mk s.nextRunId thread_id assistant_id "queued",
   { s with
     nextRunId := s.nextRunId + 1,
     log := s.log ++ [Event.runCreate thread_id assistant_id] })

/-- The `threads.messages.list(thread_id, order)` endpoint, per the ordering
contract the scripts rely on: `store thread_id` holds the messages of a
thread in creation order; `order="asc"` lists them chronologically, any other
value gives the service default, most-recent-first. -/
def messagesList (store : Nat → List Message) (thread_id : Nat) (order : String) :
    List Message :=
  if order == "asc" then store thread_id else (store thread_id).reverse

end Service

namespace HM

/-- Embeds `submit_message(client, assistant_id, thread, user_message)` from
`_Assistants_helper_module.py`: creates the user message on the thread, then
creates a run on the thread for the assistant, and returns the run. -/
def submit_message (client : ServiceState) (assistant_id : Nat) (thread : Thread)
    (user_message : String) : Run × ServiceState :=
  let ms := Service.messagesCreate client thread.id "user" user_message
  let rs := Service.runsCreate ms.2 thread.id assistant_id
  (rs.1, rs.2)

/-- Embeds `create_thread_and_run(client, assistant_id, user_input)` from
`_Assistants_helper_module.py`: creates a new thread, then delegates to
`submit_message`; returns the thread and the run. -/
def create_thread_and_run (client : ServiceState) (assistant_id : Nat)
    (user_input : String) : (Thread × Run) × ServiceState :=
  let ts := Service.threadsCreate client
  let rs := submit_message ts.2 assistant_id ts.1 user_input
  ((ts.1, rs.1), rs.2)

/-- Embeds `get_response(client, thread)` from `_Assistants_helper_module.py`:
`return client.beta.threads.messages.list(thread_id=thread.id, order="asc")`.
Note the order argument is hardwired to `"asc"`; the function takes none. -/
def get_response (client : Nat → List Message) (thread : Thread) : List Message :=
  Service.messagesList client thread.id "asc"

/-- The loop body of `pretty_print`: the line printed for one message,
`f"[m.role]: [m.content[0].text.value]"`; `none` models the `IndexError`
raised when `content` is empty. -/
def formatLines : List Message → Option (List String)
  | [] => some []
  | m :: ms =>
      match m.content.get? 0 with
      | some c =>
          match formatLines ms with
          | some rest => some ((m.role ++ ": " ++ c.text.value) :: rest)
          | none => none
      | none => none

/-- Embeds `pretty_print(messages)` from `_Assistants_helper_module.py`: prints a
`# Messages` header, one `role: content[0].text.value` line per message and a
final blank line; `none` models the uncaught `IndexError` on an empty
`content` list. -/
def pretty_print (messages : List Message) : Option (List String) :=
  match formatLines messages with
  | some body => some ("# Messages" :: (body ++ [""]))
  | none => none

end HM

namespace OA

/-- Embeds `wait_on_run(run, thread)` from `OpenAI_Assistants.py`: same loop as the
helper-module version, with the module-global `client` passed here as the
response stream parameter. -/
def wait_on_run (client : Nat → Run) : Nat → Nat → Run → Thread → Option (Run × List Event)
  | 0, _, run, _ =>
      if isPending run.status then none else some (run, [])
  | fuel + 1, k, run, thread =>
      if isPending run.status then
        match wait_on_run client fuel (k + 1) (client k) thread with
        | some (rf, tr) =>
            some (rf, Event.runRetrieve thread.id run.id :: Event.sleep 500 :: tr)
        | none => none
      else some (run, [])

/-- Embeds `submit_message(assistant_id, thread, user_message)` from
`OpenAI_Assistants.py`, with the module-global `client` passed explicitly. -/
def submit_message (client : ServiceState) (assistant_id : Nat) (thread : Thread)
    (user_message : String) : Run × ServiceState :=
  let ms := Service.messagesCreate client thread.id "user" user_message
  let rs := Service.runsCreate ms.2 thread.id assistant_id
  (rs.1, rs.2)

/-- Embeds `create_thread_and_run(user_input)` from `OpenAI_Assistants.py`: uses the
module-globals `client` and `MATH_ASSISTANT_ID`, passed here explicitly. -/
def create_thread_and_run (MATH_ASSISTANT_ID : Nat) (client : ServiceState)
    (user_input : String) : (Thread × Run) × ServiceState :=
  let ts := Service.threadsCreate client
  let rs := submit_message ts.2 MATH_ASSISTANT_ID ts.1 user_input
  ((ts.1, rs.1), rs.2)

end OA

/-- Two successive `create_thread_and_run` calls against the same service,
the second starting from the state the first left behind. -/
def two_calls (s : ServiceState) (aid1 aid2 : Nat) (t1 t2 : String) :
    ((Thread × Run) × ServiceState) × ((Thread × Run) × ServiceState) :=
  let c1 := HM.create_thread_and_run s aid1 t1
  (c1, HM.create_thread_and_run c1.2 aid2 t2)

/-- Concrete fixture: an initial service state with no threads and an empty
log. -/
def s0 : ServiceState :=
  ServiceState.mk 0 0 0 (fun _ => []) []

/-- Concrete fixture: the older of two messages on thread 0. -/
def mA : Message :=
  Message.mk 1 0 "user" [ContentPart.mk (TextVal.mk "hi")] 1

/-- Concrete fixture: the newer of two messages on thread 0. -/
def mB : Message :=
  Message.mk 2 0 "assistant" [ContentPart.mk (TextVal.mk "hello")] 2

/-- Concrete fixture: a message store holding `[mA, mB]` on thread 0. -/
def store0 : Nat → List Message :=
  fun t => if t = 0 then [mA, mB] else []

/-- Concrete fixture: a message whose content list is empty. -/
def badMsg : Message :=
  Message.mk 3 0 "assistant" [] 3

/-- Concrete fixture: a message with one content element. -/
def goodMsg : Message :=
  Message.mk 4 0 "user" [ContentPart.mk (TextVal.mk "ok")] 4

/-- If the current run is not pending, the loop body never executes: for any
fuel the waiter returns the run unchanged with an empty trace. -/
theorem wait_not_pending (client : Nat → Run) (fuel k : Nat) (run : Run)
    (thread : Thread) (h : isPending run.status = false) :
    HM.wait_on_run client fuel k run thread = some (run, []) := by
  cases fuel <;> simp [HM.wait_on_run, h]

/-- Any run the waiter returns has left the pending set. -/
theorem wait_result_not_pending (client : Nat → Run) :
    ∀ (fuel k : Nat) (run : Run) (thread : Thread) (rf : Run) (tr : List Event),
      HM.wait_on_run client fuel k run thread = some (rf, tr) →
      isPending rf.status = false := by
  intro fuel
  induction fuel with
  | zero =>
      intro k run thread rf tr h
      by_cases hp : isPending run.status
      · simp [HM.wait_on_run, hp] at h
      · simp [HM.wait_on_run, hp] at h
        simp only [Bool.not_eq_true] at hp
        rw [← h.1]; exact hp
  | succ n ih =>
      intro k run thread rf tr h
      by_cases hp : isPending run.status
      · simp only [HM.wait_on_run, hp, if_true] at h
        cases hrec : HM.wait_on_run client n (k + 1) (client k) thread with
        | none => rw [hrec] at h; exact absurd h (by simp)
        | some out =>
            rw [hrec] at h
            simp only [Option.some.injEq] at h
            have := ih (k + 1) (client k) thread out.1 out.2 (by rw [hrec])
            have h1 : rf = out.1 := by
              cases out; simp at h; exact h.1.symm
            rw [h1]; exact this
      · simp [HM.wait_on_run, hp] at h
        simp only [Bool.not_eq_true] at hp
        rw [← h.1]; exact hp

/-- Any run the waiter returns is the input run itself or one of the runs
fetched from the service (index bounded by the retrieve count of the trace). -/
theorem wait_result_source (client : Nat → Run) :
    ∀ (fuel k : Nat) (run : Run) (thread : Thread) (rf : Run) (tr : List Event),
      HM.wait_on_run client fuel k run thread = some (rf, tr) →
      rf = run ∨ ∃ i, k ≤ i ∧ i < k + countRetrieves tr ∧ rf = client i := by
  intro fuel
  induction fuel with
  | zero =>
      intro k run thread rf tr h
      by_cases hp : isPending run.status
      · simp [HM.wait_on_run, hp] at h
      · simp [HM.wait_on_run, hp] at h
        exact Or.inl h.1.symm
  | succ n ih =>
      intro k run thread rf tr h
      by_cases hp : isPending run.status
      · simp only [HM.wait_on_run, hp, if_true] at h
        cases hrec : HM.wait_on_run client n (k + 1) (client k) thread with
        | none => rw [hrec] at h; exact absurd h (by simp)
        | some out =>
            rw [hrec] at h
            cases out with
            | mk rf2 tr2 =>
                simp only [Option.some.injEq, Prod.mk.injEq] at h
                obtain ⟨hrf, htr⟩ := h
                have hsrc := ih (k + 1) (client k) thread rf2 tr2 (by rw [hrec])
                have hcount : countRetrieves tr = 1 + countRetrieves tr2 := by
                  rw [← htr]
                  simp [countRetrieves, List.countP_cons]
                  omega
                rcases hsrc with heq | ⟨i, hki, hilt, hcl⟩
                · right
                  exact ⟨k, le_refl k, by omega, by rw [← hrf, heq]⟩
                · right
                  exact ⟨i, by omega, by omega, by rw [← hrf, hcl]⟩
      · simp [HM.wait_on_run, hp] at h
        exact Or.inl h.1.symm

/-- C1: every run returned by `wait_on_run` has a status outside
{queued, in_progress}, and it is exactly the input run or one of the run
snapshots the service returned — the waiter fabricates no status. -/
theorem C1_wait_returns_unfabricated_nonpending (client : Nat → Run)
    (fuel : Nat) (run : Run) (thread : Thread) (rf : Run) (tr : List Event)
    (h : HM.wait_on_run client fuel 0 run thread = some (rf, tr)) :
    isPending rf.status = false ∧
      (rf = run ∨ ∃ i, i < countRetrieves tr ∧ rf = client i) := by
  refine ⟨wait_result_not_pending client fuel 0 run thread rf tr h, ?_⟩
  rcases wait_result_source client fuel 0 run thread rf tr h with heq | ⟨i, _, hlt, hcl⟩
  · exact Or.inl heq
  · exact Or.inr ⟨i, by omega, hcl⟩

/-- C9: a run that is already outside the pending set makes the loop body
unreachable: `wait_on_run` returns the input run unchanged, with an empty
trace — zero service fetches and zero sleeps. -/
theorem C9_wait_nonpending_returns_input (client : Nat → Run) (fuel : Nat)
    (run : Run) (thread : Thread) (h : isPending run.status = false) :
    HM.wait_on_run client fuel 0 run thread = some (run, []) ∧
      countRetrieves ([] : List Event) = 0 ∧ countSleeps ([] : List Event) = 0 := by
  refine ⟨wait_not_pending client fuel 0 run thread h, ?_, ?_⟩ <;> rfl

/-- C9 witness at a concrete completed run. -/
theorem C9_wait_nonpending_returns_input_witness :
    HM.wait_on_run (fun _ => Run.mk 9 3 4 "completed") 7 0
        (Run.mk 2 3 4 "completed") (Thread.mk 3) = some (Run.mk 2 3 4 "completed", []) ∧
      countRetrieves ([] : List Event) = 0 ∧ countSleeps ([] : List Event) = 0 :=
  C9_wait_nonpending_returns_input (fun _ => Run.mk 9 3 4 "completed") 7
    (Run.mk 2 3 4 "completed") (Thread.mk 3) (by decide)

/-- C4: starting from a pending run, if the first re-fetch returns a run with
status `"failed"`, the waiter exits with that run after exactly one retrieve
call (the trace holds a single retrieve, followed by the single 500 ms sleep
of that loop iteration). -/
theorem C4_failed_first_poll_one_retrieve (client : Nat → Run) (fuel : Nat)
    (run : Run) (thread : Thread)
    (h1 : isPending run.status = true) (h2 : (client 0).status = "failed") :
    HM.wait_on_run client (fuel + 1) 0 run thread
        = some (client 0, [Event.runRetrieve thread.id run.id, Event.sleep 500]) ∧
      countRetrieves [Event.runRetrieve thread.id run.id, Event.sleep 500] = 1 := by
  have hnp : isPending (client 0).status = false := by
    rw [h2]; rfl
  constructor
  · simp only [HM.wait_on_run, h1, if_true]
    rw [wait_not_pending client fuel 1 (client 0) thread hnp]
  · simp [countRetrieves, List.countP_cons]

/-- C4 witness: a queued run whose first re-fetch is failed. -/
theorem C4_failed_first_poll_one_retrieve_witness :
    HM.wait_on_run (fun _ => Run.mk 5 3 4 "failed") (2 + 1) 0
        (Run.mk 5 3 4 "queued") (Thread.mk 3)
        = some (Run.mk 5 3 4 "failed", [Event.runRetrieve 3 5, Event.sleep 500]) ∧
      countRetrieves [Event.runRetrieve 3 5, Event.sleep 500] = 1 :=
  C4_failed_first_poll_one_retrieve (fun _ => Run.mk 5 3 4 "failed") 2
    (Run.mk 5 3 4 "queued") (Thread.mk 3) (by decide) (by decide)

/-- One unfolding of the loop when the current run is pending. -/
theorem wait_step (client : Nat → Run) (fuel k : Nat) (run : Run)
    (thread : Thread) (hp : isPending run.status = true) :
    HM.wait_on_run client (fuel + 1) k run thread =
      match HM.wait_on_run client fuel (k + 1) (client k) thread with
      | some (rf, tr) =>
          some (rf, Event.runRetrieve thread.id run.id :: Event.sleep 500 :: tr)
      | none => none := by
  simp only [HM.wait_on_run, hp, if_true]

/-- When the input run and every service response are pending, the loop never
exits: every fuel bound is exhausted. -/
theorem wait_diverges (client : Nat → Run) (thread : Thread) :
    ∀ (fuel k : Nat) (run : Run), isPending run.status = true →
      (∀ i, isPending (client i).status = true) →
      HM.wait_on_run client fuel k run thread = none := by
  intro fuel
  induction fuel with
  | zero =>
      intro k run hp _
      simp [HM.wait_on_run, hp]
  | succ n ih =>
      intro k run hp hall
      simp only [HM.wait_on_run, hp, if_true]
      rw [ih (k + 1) (client k) (hall k) hall]

/-- If the (k+i)-th service response is non-pending, fuel i+1 suffices for the
loop (started at retrieve index k) to exit. -/
theorem wait_reaches (client : Nat → Run) (thread : Thread) :
    ∀ (i k : Nat) (run : Run), isPending (client (k + i)).status = false →
      ∃ out, HM.wait_on_run client (i + 1) k run thread = some out := by
  intro i
  induction i with
  | zero =>
      intro k run hnp
      by_cases hp : isPending run.status
      · refine ⟨(client k, [Event.runRetrieve thread.id run.id, Event.sleep 500]), ?_⟩
        simp only [HM.wait_on_run, hp, if_true]
        have : isPending (client k).status = false := by
          simpa using hnp
        simp [this]
      · exact ⟨(run, []), by simp [HM.wait_on_run, hp]⟩
  | succ i ih =>
      intro k run hnp
      by_cases hp : isPending run.status
      · have hx : isPending (client ((k + 1) + i)).status = false := by
          have : (k + 1) + i = k + (i + 1) := by omega
          rw [this]; exact hnp
        obtain ⟨out, hout⟩ := ih (k + 1) (client k) hx
        cases out with
        | mk rf tr =>
            refine ⟨(rf, Event.runRetrieve thread.id run.id :: Event.sleep 500 :: tr), ?_⟩
            rw [wait_step client (i + 1) k run thread hp, hout]
      · exact ⟨(run, []), by simp [HM.wait_on_run, hp]⟩

/-- C5: `wait_on_run` imposes no client-side timeout or iteration cap.  It
exits for some fuel bound exactly when the input status or some service
response leaves {queued, in_progress}; against a service that always answers
pending, no amount of fuel makes it return. -/
theorem C5_no_timeout_terminates_iff (client : Nat → Run) (run : Run)
    (thread : Thread) :
    ((∃ fuel out, HM.wait_on_run client fuel 0 run thread = some out) ↔
      (isPending run.status = false ∨ ∃ i, isPending (client i).status = false)) ∧
    ((isPending run.status = true ∧ ∀ i, isPending (client i).status = true) →
      ∀ fuel, HM.wait_on_run client fuel 0 run thread = none) := by
  constructor
  · constructor
    · intro ⟨fuel, out, hout⟩
      by_contra hc
      push_neg at hc
      obtain ⟨h1, h2⟩ := hc
      have h1t : isPending run.status = true := by
        simpa using h1
      have h2t : ∀ i, isPending (client i).status = true := by
        intro i; have := h2 i; simpa using this
      rw [wait_diverges client thread fuel 0 run h1t h2t] at hout
      exact absurd hout (by simp)
    · intro h
      rcases h with hnp | ⟨i, hnp⟩
      · exact ⟨0, (run, []), by simp [HM.wait_on_run, hnp]⟩
      · obtain ⟨out, hout⟩ := wait_reaches client thread i 0 run (by simpa using hnp)
        exact ⟨i + 1, out, hout⟩
  · intro ⟨h1, h2⟩ fuel
    exact wait_diverges client thread fuel 0 run h1 h2

/-- C5 witness: an always-pending service diverges, and the iff holds at it. -/
theorem C5_no_timeout_terminates_iff_witness :
    ((∃ fuel out, HM.wait_on_run svcPending fuel 0
        (Run.mk 5 3 4 "queued") (Thread.mk 3) = some out) ↔
      (isPending (Run.mk 5 3 4 "queued").status = false ∨
        ∃ i, isPending (svcPending i).status = false)) ∧
    ((isPending (Run.mk 5 3 4 "queued").status = true ∧
        ∀ i, isPending (svcPending i).status = true) →
      ∀ fuel, HM.wait_on_run svcPending fuel 0
        (Run.mk 5 3 4 "queued") (Thread.mk 3) = none) :=
  C5_no_timeout_terminates_iff svcPending
    (Run.mk 5 3 4 "queued") (Thread.mk 3)

/-- C1 witness: a queued run whose first re-fetch is completed. -/
theorem C1_wait_returns_unfabricated_nonpending_witness :
    isPending (Run.mk 9 3 4 "completed").status = false ∧
      (Run.mk 9 3 4 "completed" = Run.mk 5 3 4 "queued" ∨
        ∃ i, i < countRetrieves [Event.runRetrieve 3 5, Event.sleep 500] ∧
          Run.mk 9 3 4 "completed" = svcDone i) :=
  C1_wait_returns_unfabricated_nonpending svcDone 2 (Run.mk 5 3 4 "queued")
    (Thread.mk 3) (Run.mk 9 3 4 "completed") [Event.runRetrieve 3 5, Event.sleep 500]
    (by decide)

/-- Every trace the waiter returns is empty or starts with a retrieve call. -/
theorem wait_trace_head (client : Nat → Run) (fuel k : Nat) (run : Run)
    (thread : Thread) (rf : Run) (tr : List Event)
    (h : HM.wait_on_run client fuel k run thread = some (rf, tr)) :
    tr = [] ∨ ∃ t r tl, tr = Event.runRetrieve t r :: tl := by
  cases fuel with
  | zero =>
      by_cases hp : isPending run.status
      · simp [HM.wait_on_run, hp] at h
      · simp [HM.wait_on_run, hp] at h
        exact Or.inl h.2
  | succ n =>
      by_cases hp : isPending run.status
      · rw [wait_step client n k run thread hp] at h
        cases hrec : HM.wait_on_run client n (k + 1) (client k) thread with
        | none => rw [hrec] at h; exact absurd h (by simp)
        | some out =>
            rw [hrec] at h
            cases out with
            | mk rf2 tr2 =>
                simp only [Option.some.injEq, Prod.mk.injEq] at h
                exact Or.inr ⟨thread.id, run.id, Event.sleep 500 :: tr2, h.2.symm⟩
      · simp [HM.wait_on_run, hp] at h
        exact Or.inl h.2

/-- Shape of every trace the waiter returns: each retrieve is immediately
followed by a 500 ms sleep, every sleep is 500 ms, and each sleep is followed
by the next retrieve or ends the trace. -/
theorem wait_trace_alternates (client : Nat → Run) :
    ∀ (fuel k : Nat) (run : Run) (thread : Thread) (rf : Run) (tr : List Event),
      HM.wait_on_run client fuel k run thread = some (rf, tr) →
      (∀ j t r, tr.get? j = some (Event.runRetrieve t r) →
        tr.get? (j + 1) = some (Event.sleep 500)) ∧
      (∀ ms, Event.sleep ms ∈ tr → ms = 500) ∧
      (∀ j ms, tr.get? j = some (Event.sleep ms) →
        tr.get? (j + 1) = none ∨
          ∃ t r, tr.get? (j + 1) = some (Event.runRetrieve t r)) := by
  intro fuel
  induction fuel with
  | zero =>
      intro k run thread rf tr h
      by_cases hp : isPending run.status
      · simp [HM.wait_on_run, hp] at h
      · simp [HM.wait_on_run, hp] at h
        rw [h.2]
        exact ⟨fun j t r hj => by simp at hj, fun ms hm => by simp at hm,
          fun j ms hj => by simp at hj⟩
  | succ n ih =>
      intro k run thread rf tr h
      by_cases hp : isPending run.status
      · rw [wait_step client n k run thread hp] at h
        cases hrec : HM.wait_on_run client n (k + 1) (client k) thread with
        | none => rw [hrec] at h; exact absurd h (by simp)
        | some out =>
            rw [hrec] at h
            cases out with
            | mk rf2 tr2 =>
                simp only [Option.some.injEq, Prod.mk.injEq] at h
                obtain ⟨hrf, htr⟩ := h
                obtain ⟨ih1, ih2, ih3⟩ := ih (k + 1) (client k) thread rf2 tr2 hrec
                rw [← htr]
                refine ⟨?_, ?_, ?_⟩
                · intro j t r hj
                  cases j with
                  | zero => simp
                  | succ j =>
                      cases j with
                      | zero => simp at hj
                      | succ j =>
                          simp only [List.get?_cons_succ] at hj ⊢
                          exact ih1 j t r hj
                · intro ms hm
                  simp only [List.mem_cons] at hm
                  rcases hm with h1 | h1 | h1
                  · exact absurd h1 (by simp)
                  · cases h1; rfl
                  · exact ih2 ms h1
                · intro j ms hj
                  cases j with
                  | zero => simp at hj
                  | succ j =>
                      cases j with
                      | zero =>
                          simp only [List.get?_cons_succ]
                          rcases wait_trace_head client n (k + 1) (client k) thread
                              rf2 tr2 hrec with hnil | ⟨t, r, tl, hcons⟩
                          · rw [hnil]; exact Or.inl rfl
                          · rw [hcons]; exact Or.inr ⟨t, r, rfl⟩
                      | succ j =>
                          simp only [List.get?_cons_succ] at hj ⊢
                          exact ih3 j ms hj
      · simp [HM.wait_on_run, hp] at h
        rw [h.2]
        exact ⟨fun j t r hj => by simp at hj, fun ms hm => by simp at hm,
          fun j ms hj => by simp at hj⟩

/-- C8: in every trace of the waiter, each status fetch is immediately
followed by a suspension of exactly 500 ms, every suspension in the trace is
500 ms (the same constant on every iteration), and a suspension is followed
by the next fetch or ends the trace — a constant 500 ms backoff between
successive fetches. -/
theorem C8_constant_500ms_between_fetches (client : Nat → Run) (fuel : Nat)
    (run : Run) (thread : Thread) (rf : Run) (tr : List Event)
    (h : HM.wait_on_run client fuel 0 run thread = some (rf, tr)) :
    (∀ j t r, tr.get? j = some (Event.runRetrieve t r) →
      tr.get? (j + 1) = some (Event.sleep 500)) ∧
    (∀ ms, Event.sleep ms ∈ tr → ms = 500) ∧
    (∀ j ms, tr.get? j = some (Event.sleep ms) →
      tr.get? (j + 1) = none ∨
        ∃ t r, tr.get? (j + 1) = some (Event.runRetrieve t r)) :=
  wait_trace_alternates client fuel 0 run thread rf tr h

/-- C8 witness: the two-iteration trace of a queued run completed on the
second re-fetch. -/
theorem C8_constant_500ms_between_fetches_witness :
    (∀ j t r, [Event.runRetrieve 3 5, Event.sleep 500].get? j
        = some (Event.runRetrieve t r) →
      [Event.runRetrieve 3 5, Event.sleep 500].get? (j + 1)
        = some (Event.sleep 500)) ∧
    (∀ ms, Event.sleep ms ∈ [Event.runRetrieve 3 5, Event.sleep 500] → ms = 500) ∧
    (∀ j ms, [Event.runRetrieve 3 5, Event.sleep 500].get? j
        = some (Event.sleep ms) →
      [Event.runRetrieve 3 5, Event.sleep 500].get? (j + 1) = none ∨
        ∃ t r, [Event.runRetrieve 3 5, Event.sleep 500].get? (j + 1)
          = some (Event.runRetrieve t r)) :=
  C8_constant_500ms_between_fetches svcDone 2 (Run.mk 5 3 4 "queued")
    (Thread.mk 3) (Run.mk 9 3 4 "completed") [Event.runRetrieve 3 5, Event.sleep 500]
    (by decide)

/-- C7: the helper functions inlined in `OpenAI_Assistants.py` (module-global
client, namespace `OA`) and the explicit-client versions of
`_Assistants_helper_module.py` (namespace `HM`) issue the same service calls
and return the same results on every input and every service behavior. -/
theorem C7_inlined_equals_module :
    (∀ (client : Nat → Run) (fuel k : Nat) (run : Run) (thread : Thread),
        OA.wait_on_run client fuel k run thread
          = HM.wait_on_run client fuel k run thread) ∧
    (∀ (client : ServiceState) (assistant_id : Nat) (thread : Thread)
        (user_message : String),
        OA.submit_message client assistant_id thread user_message
          = HM.submit_message client assistant_id thread user_message) ∧
    (∀ (MATH_ASSISTANT_ID : Nat) (client : ServiceState) (user_input : String),
        OA.create_thread_and_run MATH_ASSISTANT_ID client user_input
          = HM.create_thread_and_run client MATH_ASSISTANT_ID user_input) := by
  refine ⟨?_, fun _ _ _ _ => rfl, fun _ _ _ => rfl⟩
  intro client fuel
  induction fuel with
  | zero => intro k run thread; rfl
  | succ n ih =>
      intro k run thread
      simp only [OA.wait_on_run, HM.wait_on_run]
      rw [ih (k + 1) (client k)]

/-- C3: the calls `submit_message` issues, beyond the log it started from,
are exactly the user-message append on the thread followed by the run
creation on the thread; every run-creation event among them is strictly
preceded by the message append — no run referencing the thread is created
before the message. -/
theorem C3_message_appended_before_run (s : ServiceState) (assistant_id : Nat)
    (thread : Thread) (txt : String) :
    (HM.submit_message s assistant_id thread txt).2.log.drop s.log.length
        = [Event.msgCreate thread.id "user" txt,
           Event.runCreate thread.id assistant_id] ∧
    (∀ j aid,
      ((HM.submit_message s assistant_id thread txt).2.log.drop s.log.length).get? j
          = some (Event.runCreate thread.id aid) →
      ∃ i, i < j ∧
        ((HM.submit_message s assistant_id thread txt).2.log.drop s.log.length).get? i
          = some (Event.msgCreate thread.id "user" txt)) := by
  have hlog : (HM.submit_message s assistant_id thread txt).2.log
      = s.log ++ [Event.msgCreate thread.id "user" txt,
                  Event.runCreate thread.id assistant_id] := by
    simp [HM.submit_message, Service.messagesCreate, Service.runsCreate]
  have hdrop : (HM.submit_message s assistant_id thread txt).2.log.drop s.log.length
      = [Event.msgCreate thread.id "user" txt,
         Event.runCreate thread.id assistant_id] := by
    rw [hlog]; exact List.drop_left _ _
  refine ⟨hdrop, ?_⟩
  intro j aid hj
  rw [hdrop] at hj
  rw [hdrop]
  cases j with
  | zero => simp at hj
  | succ j =>
      cases j with
      | zero => exact ⟨0, by omega, rfl⟩
      | succ j => simp at hj

/-- C3 witness at a concrete service state and thread. -/
theorem C3_message_appended_before_run_witness :
    (HM.submit_message s0 7 (Thread.mk 0) "hi").2.log.drop s0.log.length
        = [Event.msgCreate 0 "user" "hi", Event.runCreate 0 7] ∧
    (∀ j aid,
      ((HM.submit_message s0 7 (Thread.mk 0) "hi").2.log.drop s0.log.length).get? j
          = some (Event.runCreate 0 aid) →
      ∃ i, i < j ∧
        ((HM.submit_message s0 7 (Thread.mk 0) "hi").2.log.drop s0.log.length).get? i
          = some (Event.msgCreate 0 "user" "hi")) :=
  C3_message_appended_before_run s0 7 (Thread.mk 0) "hi"

/-- C6: two successive `create_thread_and_run` calls yield distinct thread
identifiers, each run references the thread its own call created, each
message stored on either thread belongs to that thread, and the two message
logs share no message. -/
theorem C6_two_calls_distinct_threads (s : ServiceState) (aid1 aid2 : Nat)
    (t1 t2 : String) :
    (two_calls s aid1 aid2 t1 t2).1.1.1.id ≠ (two_calls s aid1 aid2 t1 t2).2.1.1.id ∧
    (two_calls s aid1 aid2 t1 t2).1.1.2.thread_id
        = (two_calls s aid1 aid2 t1 t2).1.1.1.id ∧
    (two_calls s aid1 aid2 t1 t2).2.1.2.thread_id
        = (two_calls s aid1 aid2 t1 t2).2.1.1.id ∧
    (∀ m, m ∈ (two_calls s aid1 aid2 t1 t2).2.2.msgsOf
        (two_calls s aid1 aid2 t1 t2).1.1.1.id →
      m.thread_id = (two_calls s aid1 aid2 t1 t2).1.1.1.id) ∧
    (∀ m, m ∈ (two_calls s aid1 aid2 t1 t2).2.2.msgsOf
        (two_calls s aid1 aid2 t1 t2).2.1.1.id →
      m.thread_id = (two_calls s aid1 aid2 t1 t2).2.1.1.id) ∧
    ((two_calls s aid1 aid2 t1 t2).2.2.msgsOf
        (two_calls s aid1 aid2 t1 t2).1.1.1.id).inter
      ((two_calls s aid1 aid2 t1 t2).2.2.msgsOf
        (two_calls s aid1 aid2 t1 t2).2.1.1.id) = [] := by
  have hmsgs1 : (two_calls s aid1 aid2 t1 t2).2.2.msgsOf
      (two_calls s aid1 aid2 t1 t2).1.1.1.id
      = [Message.mk s.nextMessageId s.nextThreadId "user"
          [ContentPart.mk (TextVal.mk t1)] s.nextMessageId] := by
    simp [two_calls, HM.create_thread_and_run, HM.submit_message,
      Service.threadsCreate, Service.messagesCreate, Service.runsCreate]
  have hmsgs2 : (two_calls s aid1 aid2 t1 t2).2.2.msgsOf
      (two_calls s aid1 aid2 t1 t2).2.1.1.id
      = [Message.mk (s.nextMessageId + 1) (s.nextThreadId + 1) "user"
          [ContentPart.mk (TextVal.mk t2)] (s.nextMessageId + 1)] := by
    simp [two_calls, HM.create_thread_and_run, HM.submit_message,
      Service.threadsCreate, Service.messagesCreate, Service.runsCreate]
  refine ⟨?_, rfl, rfl, ?_, ?_, ?_⟩
  · show s.nextThreadId ≠ s.nextThreadId + 1
    omega
  · intro m hm
    rw [hmsgs1] at hm
    simp only [List.mem_singleton] at hm
    rw [hm]
    rfl
  · intro m hm
    rw [hmsgs2] at hm
    simp only [List.mem_singleton] at hm
    rw [hm]
    rfl
  · rw [hmsgs1, hmsgs2]
    simp [List.inter, Message.mk.injEq]

/-- C6 witness at the empty initial service state. -/
theorem C6_two_calls_distinct_threads_witness :
    (two_calls s0 1 2 "a" "b").1.1.1.id ≠ (two_calls s0 1 2 "a" "b").2.1.1.id ∧
    (two_calls s0 1 2 "a" "b").1.1.2.thread_id = (two_calls s0 1 2 "a" "b").1.1.1.id ∧
    (two_calls s0 1 2 "a" "b").2.1.2.thread_id = (two_calls s0 1 2 "a" "b").2.1.1.id ∧
    (∀ m, m ∈ (two_calls s0 1 2 "a" "b").2.2.msgsOf (two_calls s0 1 2 "a" "b").1.1.1.id →
      m.thread_id = (two_calls s0 1 2 "a" "b").1.1.1.id) ∧
    (∀ m, m ∈ (two_calls s0 1 2 "a" "b").2.2.msgsOf (two_calls s0 1 2 "a" "b").2.1.1.id →
      m.thread_id = (two_calls s0 1 2 "a" "b").2.1.1.id) ∧
    ((two_calls s0 1 2 "a" "b").2.2.msgsOf (two_calls s0 1 2 "a" "b").1.1.1.id).inter
      ((two_calls s0 1 2 "a" "b").2.2.msgsOf (two_calls s0 1 2 "a" "b").2.1.1.id) = [] :=
  C6_two_calls_distinct_threads s0 1 2 "a" "b"

/-- C2 counterexample: `get_response` has no order argument and always lists
ascending; on a two-message thread its result is the chronological list, not
the service-default most-recent-first list the claim says is returned when
ascending is not asked for. -/
theorem C2_counterexample_always_ascending :
    HM.get_response store0 (Thread.mk 0) = [mA, mB] ∧
    Service.messagesList store0 0 "desc" = [mB, mA] ∧
    HM.get_response store0 (Thread.mk 0) ≠ Service.messagesList store0 0 "desc" := by
  refine ⟨rfl, rfl, ?_⟩
  decide

/-- C2 (amended): `get_response` takes no order argument; it always lists the
messages of the thread with the hardwired order `"asc"`.  If the stored
messages are in non-decreasing creation-time order, so is its result, and the
result is a permutation of (holds the same messages as) the service-default
descending listing. -/
theorem C2_get_response_ascending (store : Nat → List Message) (thread : Thread)
    (h : List.Chain' (fun a b => a.created_at ≤ b.created_at) (store thread.id)) :
    HM.get_response store thread = Service.messagesList store thread.id "asc" ∧
    List.Chain' (fun a b => a.created_at ≤ b.created_at)
      (HM.get_response store thread) ∧
    (HM.get_response store thread).Perm (Service.messagesList store thread.id "desc") := by
  refine ⟨rfl, ?_, ?_⟩
  · show List.Chain' _ (Service.messagesList store thread.id "asc")
    simpa [Service.messagesList] using h
  · show (Service.messagesList store thread.id "asc").Perm
      (Service.messagesList store thread.id "desc")
    simp only [Service.messagesList]
    norm_num
    exact (List.reverse_perm (store thread.id)).symm

/-- C2 witness at the two-message store. -/
theorem C2_get_response_ascending_witness :
    HM.get_response store0 (Thread.mk 0) = Service.messagesList store0 0 "asc" ∧
    List.Chain' (fun a b => a.created_at ≤ b.created_at)
      (HM.get_response store0 (Thread.mk 0)) ∧
    (HM.get_response store0 (Thread.mk 0)).Perm (Service.messagesList store0 0 "desc") :=
  C2_get_response_ascending store0 (Thread.mk 0)
    (by simp [store0, mA, mB, List.chain'_cons])

/-- Formatting succeeds on every message whose content list is non-empty. -/
theorem formatLines_isSome :
    ∀ ms : List Message, (∀ m ∈ ms, m.content ≠ []) →
      (HM.formatLines ms).isSome = true := by
  intro ms
  induction ms with
  | nil => intro _; rfl
  | cons m rest ih =>
      intro h
      have hm : m.content ≠ [] := h m (List.mem_cons_self m rest)
      have hrest := ih (fun x hx => h x (List.mem_cons_of_mem m hx))
      cases hc : m.content with
      | nil => exact absurd hc hm
      | cons c cs =>
          cases hrec : HM.formatLines rest with
          | none => rw [hrec] at hrest; exact absurd hrest (by simp)
          | some body => simp [HM.formatLines, hc, hrec]

/-- C10: `pretty_print` indexes `content[0]` of every message with no guard:
whenever every message has a non-empty content list the failure branch is
unreachable, and on a message with an empty content list the indexing fails
(the `none` of the embedding, the uncaught `IndexError` of the code). -/
theorem C10_pretty_print_unguarded_indexing :
    (∀ ms : List Message, (∀ m ∈ ms, m.content ≠ []) →
        (HM.pretty_print ms).isSome = true) ∧
    HM.pretty_print [badMsg] = none := by
  constructor
  · intro ms h
    have hf := formatLines_isSome ms h
    cases hrec : HM.formatLines ms with
    | none => rw [hrec] at hf; exact absurd hf (by simp)
    | some body => simp [HM.pretty_print, hrec]
  · rfl

/-- C10 witness: success on a message with one content element. -/
theorem C10_pretty_print_unguarded_indexing_witness :
    (HM.pretty_print [goodMsg]).isSome = true :=
  C10_pretty_print_unguarded_indexing.1 [goodMsg] (by decide)
